import Mathlib

/-!
Shallow embedding of `src/triage/component/architect/planner.py`.

Python dictionaries are modelled as insertion-ordered association lists
(`Dict`), with `lookup?` returning the first binding of a key, `set`
modelling `d[k] = v` (update in place, append when fresh) and `update`
modelling `d.update(other)`.  Python values that occur in the planner
(strings, `None`, lists, nested dicts) are modelled by the inductive
`Value`; `Value.vnone` is Python `None`.

The identifier function `metta.generate_uuid` is an external collaborator
(the spec treats it as an opaque deterministic function of the metadata
record), so every operation takes it as a parameter `g : Dict → String`.

`matrix_definition['first_as_of_time']` and friends raise `KeyError` in
Python when the key is absent; the embedding totalises these mandatory
lookups with `Dict.get!`, which returns `Value.vnone` in that case.  No
claim concerns the missing-key error behaviour.
-/

set_option autoImplicit false

namespace Triage

/-- A Python value as used by the planner: strings, `None`, lists and
(nested) dictionaries. -/
inductive Value where
  | str : String → Value
  | vnone : Value
  | list : List Value → Value
  | dict : List (String × Value) → Value
  deriving Repr, Inhabited

mutual

/-- Decidable structural equality of values. -/
def Value.decEq : (a b : Value) → Decidable (a = b)
  | .str a, .str b =>
      match String.decEq a b with
      | .isTrue h => .isTrue (h ▸ rfl)
      | .isFalse h => .isFalse (fun hc => h (Value.str.inj hc))
  | .vnone, .vnone => .isTrue rfl
  | .list a, .list b =>
      match Value.decEqList a b with
      | .isTrue h => .isTrue (h ▸ rfl)
      | .isFalse h => .isFalse (fun hc => h (Value.list.inj hc))
  | .dict a, .dict b =>
      match Value.decEqDict a b with
      | .isTrue h => .isTrue (h ▸ rfl)
      | .isFalse h => .isFalse (fun hc => h (Value.dict.inj hc))
  | .str _, .vnone => .isFalse (fun h => nomatch h)
  | .str _, .list _ => .isFalse (fun h => nomatch h)
  | .str _, .dict _ => .isFalse (fun h => nomatch h)
  | .vnone, .str _ => .isFalse (fun h => nomatch h)
  | .vnone, .list _ => .isFalse (fun h => nomatch h)
  | .vnone, .dict _ => .isFalse (fun h => nomatch h)
  | .list _, .str _ => .isFalse (fun h => nomatch h)
  | .list _, .vnone => .isFalse (fun h => nomatch h)
  | .list _, .dict _ => .isFalse (fun h => nomatch h)
  | .dict _, .str _ => .isFalse (fun h => nomatch h)
  | .dict _, .vnone => .isFalse (fun h => nomatch h)
  | .dict _, .list _ => .isFalse (fun h => nomatch h)

/-- Decidable equality of lists of values. -/
def Value.decEqList : (a b : List Value) → Decidable (a = b)
  | [], [] => .isTrue rfl
  | [], _ :: _ => .isFalse (fun h => nomatch h)
  | _ :: _, [] => .isFalse (fun h => nomatch h)
  | a :: as, b :: bs =>
      match Value.decEq a b, Value.decEqList as bs with
      | .isTrue h1, .isTrue h2 => .isTrue (by rw [h1, h2])
      | .isFalse h1, _ => .isFalse (by intro hc; injection hc; exact h1 (by assumption))
      | _, .isFalse h2 => .isFalse (by intro hc; injection hc; exact h2 (by assumption))

/-- Decidable equality of lists of key-value bindings. -/
def Value.decEqDict : (a b : List (String × Value)) → Decidable (a = b)
  | [], [] => .isTrue rfl
  | [], _ :: _ => .isFalse (fun h => nomatch h)
  | _ :: _, [] => .isFalse (fun h => nomatch h)
  | (ka, va) :: as, (kb, vb) :: bs =>
      match String.decEq ka kb, Value.decEq va vb, Value.decEqDict as bs with
      | .isTrue h1, .isTrue h2, .isTrue h3 => .isTrue (by rw [h1, h2, h3])
      | .isFalse h1, _, _ => .isFalse (by
          intro hc; injection hc with hp ht
          exact h1 (congrArg Prod.fst hp))
      | _, .isFalse h2, _ => .isFalse (by
          intro hc; injection hc with hp ht
          exact h2 (congrArg Prod.snd hp))
      | _, _, .isFalse h3 => .isFalse (by
          intro hc; injection hc with hp ht
          exact h3 ht)

end

instance : DecidableEq Value := Value.decEq

/-- A Python dictionary: an insertion-ordered association list. -/
abbrev Dict : Type := List (String × Value)

namespace Dict

/-- `d.get(k)` without default: the first binding of `k`, if any. -/
def lookup? (d : Dict) (k : String) : Option Value :=
  match d with
  | [] => none
  | (k', v) :: rest => if k' = k then some v else lookup? rest k

/-- Python `d[k]`, totalised: `KeyError` becomes `Value.vnone`. -/
def get! (d : Dict) (k : String) : Value :=
  (d.lookup? k).getD .vnone

/-- Python `d.get(k, default)`. -/
def getD (d : Dict) (k : String) (v : Value) : Value :=
  (d.lookup? k).getD v

/-- Python `d[k] = v`: overwrite the first binding in place, or append a
fresh binding at the end. -/
def set (d : Dict) (k : String) (v : Value) : Dict :=
  match d with
  | [] => [(k, v)]
  | (k', v') :: rest =>
      if k' = k then (k, v) :: rest else (k', v') :: set rest k v

/-- Python `d.update(other)`: set each binding of `other` in order. -/
def update (d other : Dict) : Dict :=
  other.foldl (fun acc kv => acc.set kv.1 kv.2) d

/-- The keys of the dictionary, in order. -/
def keys (d : Dict) : List String :=
  d.map Prod.fst

end Dict

/-- Python `str(v)`, only ever applied to build the human-readable
`matrix_id` (which the spec says is never relied on for uniqueness);
non-string values get a schematic rendering. -/
def Value.pyStr : Value → String
  | .str s => s
  | .vnone => "None"
  | .list _ => "[...]"
  | .dict _ => "\x7b...\x7d"

/-- Reading a `Value` as a dictionary (Python would raise on a
non-dict; totalised to the empty dict). -/
def Value.asDict : Value → Dict
  | .dict d => d
  | _ => ([] : List (String × Value))

/-- Reading a `Value` as a list (totalised to `[]`). -/
def Value.asList : Value → List Value
  | .list l => l
  | _ => []

/-- Embed a list of strings as a Python list value. -/
def strList (l : List String) : Value :=
  .list (l.map .str)

/-- A feature dictionary: mapping from feature-table name to the list of
feature-column names sourced from it, with a defined iteration order. -/
abbrev FeatureDictionary : Type := List (String × List String)

/-- Modelled from the spec (the source of `FeatureDictionary.names` is not
in the repository snapshot): the table-name view of the feature
dictionary, in the dictionary's own iteration order. -/
def FeatureDictionary.names (fd : FeatureDictionary) : List String :=
  fd.map Prod.fst

/-- Modelled from the spec (the source of `utils.feature_list` is not in
the repository snapshot): the full ordered flattening of all columns
across all tables, table iteration order preserved, column order within a
table preserved. -/
def feature_list (fd : FeatureDictionary) : List String :=
  (fd.map Prod.snd).flatten

/-- Modelled from the spec (the source of
`state_table_generators.DEFAULT_ACTIVE_STATE` is not in the repository
snapshot): the single built-in always-active entity-state expression. -/
def DEFAULT_ACTIVE_STATE : String := "active"

/-- The Planner's construction-time configuration (`Planner.__init__`
fields, after normalisation). -/
structure Planner where
  feature_start_time : Value
  label_names : List String
  label_types : List String
  states : List String
  matrix_directory : Value
  user_metadata : Dict
  cohort_name : String
  deriving DecidableEq

/-- `Planner.__init__`: stores the configuration, normalising an empty
`states` list to the single default active state (`states or [...]`),
with `cohort_name` defaulting to `"default"` at call sites that omit it. -/
def Planner.init (feature_start_time : Value) (label_names label_types states : List String)
    (matrix_directory : Value) (user_metadata : Dict)
    (cohort_name : String := "default") : Planner :=
  { feature_start_time := feature_start_time
    label_names := label_names
    label_types := label_types
    states := if states.isEmpty then [DEFAULT_ACTIVE_STATE] else states
    matrix_directory := matrix_directory
    user_metadata := user_metadata
    cohort_name := cohort_name }

/-- A build task (`Planner._generate_build_task` returns a dict with this
fixed key set; modelled as a structure, one field per key). -/
structure BuildTask where
  as_of_times : Value
  label_name : Value
  label_type : Value
  feature_dictionary : FeatureDictionary
  matrix_directory : Value
  matrix_uuid : String
  matrix_metadata : Dict
  matrix_type : Value
  deriving DecidableEq, Inhabited

/-- `Planner._generate_build_task`. -/
def Planner.generate_build_task (p : Planner) (matrix_metadata : Dict)
    (matrix_uuid : String) (train_matrix : Dict)
    (feature_dictionary : FeatureDictionary) : BuildTask :=
  { as_of_times := train_matrix.get! "as_of_times"
    label_name := matrix_metadata.get! "label_name"
    label_type := matrix_metadata.get! "label_type"
    feature_dictionary := feature_dictionary
    matrix_directory := p.matrix_directory
    matrix_uuid := matrix_uuid
    matrix_metadata := matrix_metadata
    matrix_type := matrix_metadata.get! "matrix_type" }

/-- `Planner._make_metadata`: the fixed computed fields (in the source's
literal key order), then `matrix_metadata.update(matrix_definition)`,
then `matrix_metadata.update(self.user_metadata)`. -/
def Planner.make_metadata (p : Planner) (matrix_definition : Dict)
    (feature_dictionary : FeatureDictionary) (label_name label_type state matrix_type : String) :
    Dict :=
  let matrix_id := String.intercalate "_" [
    label_name,
    label_type,
    (matrix_definition.get! "first_as_of_time").pyStr,
    (matrix_definition.get! "matrix_info_end_time").pyStr]
  let matrix_metadata : Dict := [
    ("feature_start_time", p.feature_start_time),
    ("end_time", matrix_definition.get! "matrix_info_end_time"),
    ("as_of_date_frequency",
      matrix_definition.getD "training_as_of_date_frequency"
        (matrix_definition.getD "test_as_of_date_frequency" .vnone)),
    ("indices", strList ["entity_id", "as_of_date"]),
    ("feature_names", strList (feature_list feature_dictionary)),
    ("feature_groups", strList feature_dictionary.names),
    ("label_name", .str label_name),
    ("label_type", .str label_type),
    ("label_timespan",
      matrix_definition.getD "test_label_timespan"
        (matrix_definition.getD "training_label_timespan" (.str "0 days"))),
    ("cohort_name", .str p.cohort_name),
    ("state", .str state),
    ("matrix_id", .str matrix_id),
    ("matrix_type", .str matrix_type)]
  (matrix_metadata.update matrix_definition).update p.user_metadata

/-- The build-task registry: identifier-keyed, insertion-ordered with
unique keys (a Python dict). -/
abbrev Registry : Type := List (String × BuildTask)

namespace Registry

/-- Python `uuid in build_tasks`. -/
def containsKey (r : Registry) (k : String) : Bool :=
  (r : List (String × BuildTask)).any (fun kv => kv.1 == k)

/-- First binding of `k`, if any. -/
def lookup? (r : Registry) (k : String) : Option BuildTask :=
  match r with
  | [] => none
  | (k', v) :: rest => if k' = k then some v else lookup? rest k

/-- `if uuid not in build_tasks: build_tasks[uuid] = task` (a fresh key
is appended at the end; an existing key leaves the registry untouched). -/
def insertIfAbsent (r : Registry) (kv : String × BuildTask) : Registry :=
  if r.containsKey kv.1 then r else r ++ [kv]

/-- The identifiers in the registry, in insertion order. -/
def keys (r : Registry) : List String :=
  (r : List (String × BuildTask)).map Prod.fst

end Registry

/-- One combination of the cross product
`itertools.product(label_names, label_types, states, feature_dictionaries)`. -/
structure Combo where
  label_name : String
  label_type : String
  state : String
  feature_dictionary : FeatureDictionary
  deriving DecidableEq

/-- The combinations in iteration order: label name outermost, then label
type, then state, then feature dictionary innermost. -/
def Planner.comboList (p : Planner) (feature_dictionaries : List FeatureDictionary) :
    List Combo :=
  p.label_names.flatMap fun ln =>
    p.label_types.flatMap fun lt =>
      p.states.flatMap fun s =>
        feature_dictionaries.map fun fd =>
          { label_name := ln, label_type := lt, state := s, feature_dictionary := fd }

/-- Accumulator of the `generate_plans` loops: the `updated_definitions`
list and the `build_tasks` registry. -/
structure GenState where
  updated : List Dict
  tasks : Registry
  deriving DecidableEq

/-- The body of the inner `for test_matrix in matrix_set_clone['test_matrices']`
loop: synthesize test metadata, compute its identifier, insert a build
task if the identifier is fresh, and append the identifier. -/
def Planner.processTest (p : Planner) (g : Dict → String) (c : Combo)
    (acc : Registry × List String) (test_matrix : Dict) : Registry × List String :=
  let test_metadata := p.make_metadata test_matrix c.feature_dictionary
    c.label_name c.label_type c.state "test"
  let test_uuid := g test_metadata
  let tasks := acc.1.insertIfAbsent
    (test_uuid, p.generate_build_task test_metadata test_uuid test_matrix c.feature_dictionary)
  (tasks, acc.2 ++ [test_uuid])

/-- The body of the `for (label_name, ...) in itertools.product(...)` loop
of `generate_plans`: deep-copy the definition, handle the train matrix,
then every test matrix, and append the annotated clone. -/
def Planner.processCombo (p : Planner) (g : Dict → String) (matrix_set : Dict)
    (st : GenState) (c : Combo) : GenState :=
  let train_matrix := (matrix_set.get! "train_matrix").asDict
  let matrix_set_clone := matrix_set
  let train_metadata := p.make_metadata train_matrix c.feature_dictionary
    c.label_name c.label_type c.state "train"
  let train_uuid := g train_metadata
  let tasks1 := st.tasks.insertIfAbsent
    (train_uuid, p.generate_build_task train_metadata train_uuid train_matrix c.feature_dictionary)
  let clone1 := matrix_set_clone.set "train_uuid" (.str train_uuid)
  let test_matrices := ((clone1.get! "test_matrices").asList).map Value.asDict
  let folded := test_matrices.foldl (p.processTest g c) (tasks1, [])
  let clone2 := clone1.set "test_uuids" (strList folded.2)
  { updated := st.updated ++ [clone2], tasks := folded.1 }

/-- `Planner.generate_plans`: for each matrix-set definition, for each
combination of the cross product, process the combination; return the
updated definitions and the accumulated build tasks. -/
def Planner.generate_plans (p : Planner) (g : Dict → String)
    (matrix_set_definitions : List Dict) (feature_dictionaries : List FeatureDictionary) :
    List Dict × Registry :=
  let st := matrix_set_definitions.foldl
    (fun st ms => (p.comboList feature_dictionaries).foldl (p.processCombo g ms) st)
    { updated := [], tasks := [] }
  (st.updated, st.tasks)

/-! ### Derived views of the loop body

The loop body of `generate_plans` computes, for one matrix-set definition
and one combination, an annotated clone and a sequence of candidate
`(identifier, build task)` pairs that are offered to the registry with
insert-if-absent semantics.  The definitions below name these values;
lemmas later prove that `generate_plans` equals the fold of
`Registry.insertIfAbsent` over the candidate pairs, and returns the list
of annotated clones. -/

/-- The train metadata synthesized for one combination (the source reads
`matrix_set['train_matrix']` once, before the combination loop). -/
def Planner.trainMeta (p : Planner) (ms : Dict) (c : Combo) : Dict :=
  p.make_metadata (ms.get! "train_matrix").asDict c.feature_dictionary
    c.label_name c.label_type c.state "train"

/-- The test metadata synthesized for one test window and combination. -/
def Planner.testMeta (p : Planner) (w : Dict) (c : Combo) : Dict :=
  p.make_metadata w c.feature_dictionary c.label_name c.label_type c.state "test"

/-- The test windows the loop iterates over, read (as in the source) from
the clone after its `train_uuid` has been assigned. -/
def Planner.cloneTestMatrices (p : Planner) (g : Dict → String) (ms : Dict) (c : Combo) :
    List Dict :=
  (((ms.set "train_uuid" (.str (g (p.trainMeta ms c)))).get! "test_matrices").asList).map
    Value.asDict

/-- The annotated clone appended to `updated_definitions` for one
combination: the deep copy of the definition with `train_uuid` and
`test_uuids` assigned. -/
def Planner.annotate (p : Planner) (g : Dict → String) (ms : Dict) (c : Combo) : Dict :=
  (ms.set "train_uuid" (.str (g (p.trainMeta ms c)))).set "test_uuids"
    (strList ((p.cloneTestMatrices g ms c).map (fun w => g (p.testMeta w c))))

/-- One matrix planned by one combination: the synthesized metadata
record, its identifier, the build task that would be inserted for it, and
the annotated clone of the combination that produced it. -/
structure PlanItem where
  meta : Dict
  uuid : String
  task : BuildTask
  clone : Dict
  deriving Inhabited

/-- The matrices planned by one combination, in processing order: the
train matrix first, then the test matrices in window order. -/
def Planner.comboItems (p : Planner) (g : Dict → String) (ms : Dict) (c : Combo) :
    List PlanItem :=
  let clone := p.annotate g ms c
  { meta := p.trainMeta ms c
    uuid := g (p.trainMeta ms c)
    task := p.generate_build_task (p.trainMeta ms c) (g (p.trainMeta ms c))
      (ms.get! "train_matrix").asDict c.feature_dictionary
    clone := clone } ::
  (p.cloneTestMatrices g ms c).map fun w =>
    { meta := p.testMeta w c
      uuid := g (p.testMeta w c)
      task := p.generate_build_task (p.testMeta w c) (g (p.testMeta w c)) w
        c.feature_dictionary
      clone := clone }

/-- All matrices planned by one `generate_plans` call, in processing
order. -/
def Planner.planItems (p : Planner) (g : Dict → String)
    (matrix_set_definitions : List Dict) (feature_dictionaries : List FeatureDictionary) :
    List PlanItem :=
  matrix_set_definitions.flatMap fun ms =>
    (p.comboList feature_dictionaries).flatMap (p.comboItems g ms)

/-- The `(identifier, build task)` pair a plan item offers the registry. -/
def PlanItem.pair (it : PlanItem) : String × BuildTask :=
  (it.uuid, it.task)

/-- Building a registry by offering a list of candidate pairs in order,
insert-if-absent. -/
def Registry.build (kvs : List (String × BuildTask)) : Registry :=
  kvs.foldl Registry.insertIfAbsent []

/-- The identifiers annotated on an output clone: its `train_uuid`
followed by its `test_uuids` list. -/
def cloneUuids (d : Dict) : List Value :=
  d.get! "train_uuid" :: (d.get! "test_uuids").asList

/-! ### Heap embedding for the non-mutation claim

Python annotates dictionary objects in place; the pure embedding above
cannot even express mutation of the inputs.  To state the frame claim we
make object identity explicit: every matrix-set definition lives in a
heap cell, `copy.deepcopy(matrix_set)` allocates a fresh cell holding the
same value, and the assignments `matrix_set_clone['train_uuid'] = ...`
and `matrix_set_clone['test_uuids'] = ...` write to the clone's cell.
Nested windows need no cells of their own because the source never
mutates them. -/

/-- A heap of dictionary objects, addressed by allocation index. -/
structure Heap where
  cells : List Dict

/-- Dereference an object (out-of-range reads are totalised to the empty
dictionary). -/
def Heap.read (h : Heap) (r : Nat) : Dict :=
  h.cells.getD r []

/-- Overwrite the object in cell `r`. -/
def Heap.write (h : Heap) (r : Nat) (d : Dict) : Heap :=
  ⟨h.cells.set r d⟩

/-- Allocate a fresh cell holding `d`, returning the new heap and the
fresh reference. -/
def Heap.alloc (h : Heap) (d : Dict) : Heap × Nat :=
  (⟨h.cells ++ [d]⟩, h.cells.length)

/-- State of the `generate_plans` loops in the heap embedding: the heap,
the references collected in `updated_definitions`, and the registry. -/
structure HeapState where
  heap : Heap
  updated : List Nat
  tasks : Registry

/-- The combination-loop body of `generate_plans`, with the deep copy and
the two annotation assignments as explicit heap operations. -/
def Planner.processComboH (p : Planner) (g : Dict → String) (msRef : Nat)
    (st : HeapState) (c : Combo) : HeapState :=
  let ms := st.heap.read msRef
  let train_matrix := (ms.get! "train_matrix").asDict
  let alloced := st.heap.alloc ms
  let h1 := alloced.1
  let cloneRef := alloced.2
  let train_metadata := p.make_metadata train_matrix c.feature_dictionary
    c.label_name c.label_type c.state "train"
  let train_uuid := g train_metadata
  let tasks1 := st.tasks.insertIfAbsent
    (train_uuid, p.generate_build_task train_metadata train_uuid train_matrix c.feature_dictionary)
  let h2 := h1.write cloneRef ((h1.read cloneRef).set "train_uuid" (.str train_uuid))
  let test_matrices := (((h2.read cloneRef).get! "test_matrices").asList).map Value.asDict
  let folded := test_matrices.foldl (p.processTest g c) (tasks1, [])
  let h3 := h2.write cloneRef ((h2.read cloneRef).set "test_uuids" (strList folded.2))
  { heap := h3, updated := st.updated ++ [cloneRef], tasks := folded.1 }

/-- `generate_plans` in the heap embedding: the inputs are references
into the heap; the result's `updated` field lists the references of the
annotated clones. -/
def Planner.generate_plansH (p : Planner) (g : Dict → String) (h : Heap)
    (refs : List Nat) (feature_dictionaries : List FeatureDictionary) : HeapState :=
  refs.foldl
    (fun st r => (p.comboList feature_dictionaries).foldl (p.processComboH g r) st)
    { heap := h, updated := [], tasks := [] }

/-! ### Concrete example inputs

Used to witness the theorems that carry hypotheses: a small planner
configuration, two matrix-set definitions sharing a train window, a
feature dictionary, and two identifier functions. -/

/-- An example train window. -/
def exTrainWindow : Dict :=
  [("first_as_of_time", .str "2015-01-01"),
   ("matrix_info_end_time", .str "2015-06-01"),
   ("as_of_times", .list [.str "2015-01-01", .str "2015-02-01"]),
   ("training_as_of_date_frequency", .str "1 day"),
   ("training_label_timespan", .str "6 months")]

/-- An example test window carrying both the training and the test
as-of-date-frequency fields. -/
def exBothFreqWindow : Dict :=
  [("first_as_of_time", .str "2015-06-01"),
   ("matrix_info_end_time", .str "2015-09-01"),
   ("as_of_times", .list [.str "2015-06-01"]),
   ("training_as_of_date_frequency", .str "1 day"),
   ("test_as_of_date_frequency", .str "7 days")]

/-- An example matrix-set definition with no test windows. -/
def exMatrixSet : Dict :=
  [("train_matrix", .dict exTrainWindow),
   ("test_matrices", .list [])]

/-- An example matrix-set definition sharing the train window of
`exMatrixSet` and carrying one test window. -/
def exMatrixSet2 : Dict :=
  [("train_matrix", .dict exTrainWindow),
   ("test_matrices", .list [.dict exBothFreqWindow])]

/-- An example feature dictionary. -/
def exFD : FeatureDictionary := [("tableA", ["f1", "f2"]), ("tableB", ["f3"])]

/-- An example planner configuration with empty user metadata. -/
def exPlanner : Planner :=
  Planner.init (.str "2010-01-01") ["outcome"] ["binary"] ["active"]
    (.str "matrices") []

/-- A planner whose user metadata collides with a computed field
(`cohort_name`) and with a window field (`first_as_of_time`). -/
def exPlannerUM : Planner :=
  Planner.init (.str "2010-01-01") ["outcome"] ["binary"] ["active"]
    (.str "matrices")
    [("cohort_name", .str "special"), ("first_as_of_time", .str "override")]

/-- The single combination generated by `exPlanner` and `[exFD]`. -/
def exCombo : Combo :=
  { label_name := "outcome", label_type := "binary", state := "active",
    feature_dictionary := exFD }

/-- A constant identifier function. -/
def constUuid : Dict → String := fun _ => "uuid0"

/-- An identifier function reading a few discriminating fields of the
metadata record. -/
def exUuid : Dict → String := fun m =>
  (m.get! "matrix_type").pyStr ++ "|" ++ (m.get! "matrix_id").pyStr ++ "|" ++
    (m.get! "end_time").pyStr

/-- Two matrix-set definitions whose train windows coincide. -/
def exDefs2 : List Dict := [exMatrixSet, exMatrixSet2]

/-- The example feature-dictionary list. -/
def exFDs : List FeatureDictionary := [exFD]

/-- The plan item produced for the train matrix of `exMatrixSet`. -/
def exItemA : PlanItem :=
  { meta := exPlanner.trainMeta exMatrixSet exCombo
    uuid := exUuid (exPlanner.trainMeta exMatrixSet exCombo)
    task := exPlanner.generate_build_task (exPlanner.trainMeta exMatrixSet exCombo)
      (exUuid (exPlanner.trainMeta exMatrixSet exCombo))
      (exMatrixSet.get! "train_matrix").asDict exFD
    clone := exPlanner.annotate exUuid exMatrixSet exCombo }

/-- The plan item produced for the train matrix of `exMatrixSet2`. -/
def exItemB : PlanItem :=
  { meta := exPlanner.trainMeta exMatrixSet2 exCombo
    uuid := exUuid (exPlanner.trainMeta exMatrixSet2 exCombo)
    task := exPlanner.generate_build_task (exPlanner.trainMeta exMatrixSet2 exCombo)
      (exUuid (exPlanner.trainMeta exMatrixSet2 exCombo))
      (exMatrixSet2.get! "train_matrix").asDict exFD
    clone := exPlanner.annotate exUuid exMatrixSet2 exCombo }

/-- The plan item produced for the test matrix of `exMatrixSet2`. -/
def exItemC : PlanItem :=
  { meta := exPlanner.testMeta exBothFreqWindow exCombo
    uuid := exUuid (exPlanner.testMeta exBothFreqWindow exCombo)
    task := exPlanner.generate_build_task (exPlanner.testMeta exBothFreqWindow exCombo)
      (exUuid (exPlanner.testMeta exBothFreqWindow exCombo)) exBothFreqWindow exFD
    clone := exPlanner.annotate exUuid exMatrixSet2 exCombo }

/-- An example heap holding one matrix-set definition object. -/
def exHeap : Heap := ⟨[exMatrixSet2]⟩

/-! ### Lemmas about dictionary operations -/

theorem Dict.lookup?_set_self (d : Dict) (k : String) (v : Value) :
    (d.set k v).lookup? k = some v := by
  induction d with
  | nil => simp [Dict.set, Dict.lookup?]
  | cons kv rest ih =>
    by_cases h : kv.1 = k
    · simp [Dict.set, Dict.lookup?, h]
    · simpa [Dict.set, Dict.lookup?, h] using ih

theorem Dict.lookup?_set_ne (d : Dict) (k k' : String) (v : Value) (h : k ≠ k') :
    (d.set k v).lookup? k' = d.lookup? k' := by
  induction d with
  | nil =>
    simp only [Dict.set, Dict.lookup?]
    rw [if_neg h]
  | cons kv rest ih =>
    simp only [Dict.set]
    by_cases hk : kv.1 = k
    · rw [if_pos hk]
      simp only [Dict.lookup?]
      rw [if_neg h, if_neg (fun hh => h (hk.symm.trans hh))]
    · rw [if_neg hk]
      simp only [Dict.lookup?]
      by_cases hk' : kv.1 = k'
      · rw [if_pos hk', if_pos hk']
      · rw [if_neg hk', if_neg hk', ih]

theorem Dict.set_fresh (d : Dict) (k : String) (v : Value) (h : k ∉ d.keys) :
    d.set k v = d ++ [(k, v)] := by
  induction d with
  | nil => simp [Dict.set]
  | cons kv rest ih =>
    simp only [Dict.keys, List.map_cons, List.mem_cons] at h
    push_neg at h
    have h1 : ¬kv.1 = k := fun hh => h.1 hh.symm
    simp [Dict.set, h1, ih (by simpa [Dict.keys] using h.2)]

theorem Dict.keys_set_fresh (d : Dict) (k : String) (v : Value) (h : k ∉ d.keys) :
    (d.set k v).keys = d.keys ++ [k] := by
  simp [Dict.set_fresh d k v h, Dict.keys]

theorem Dict.lookup?_update_not_mem (other : Dict) :
    ∀ (d : Dict) (k : String), k ∉ other.keys →
      (d.update other).lookup? k = d.lookup? k := by
  induction other with
  | nil => intro d k _; rfl
  | cons kv rest ih =>
    intro d k hk
    simp only [Dict.keys, List.map_cons, List.mem_cons] at hk
    push_neg at hk
    have step : (d.update (kv :: rest)) = (d.set kv.1 kv.2).update rest := rfl
    rw [step, ih _ k (by simpa [Dict.keys] using hk.2),
      Dict.lookup?_set_ne _ _ _ _ (fun hh => hk.1 hh.symm)]

theorem Dict.lookup?_update_mem (other : Dict) :
    ∀ (d : Dict) (k : String), other.keys.Nodup → k ∈ other.keys →
      (d.update other).lookup? k = other.lookup? k := by
  induction other with
  | nil => intro d k _ hk; simp [Dict.keys] at hk
  | cons kv rest ih =>
    intro d k hnd hk
    have step : (d.update (kv :: rest)) = (d.set kv.1 kv.2).update rest := rfl
    simp only [Dict.keys, List.map_cons, List.nodup_cons] at hnd
    by_cases hhit : kv.1 = k
    · subst hhit
      have hr : Dict.lookup? (kv :: rest) kv.1 = some kv.2 := by
        simp [Dict.lookup?]
      rw [step, Dict.lookup?_update_not_mem rest _ _ (by simpa [Dict.keys] using hnd.1),
        Dict.lookup?_set_self, hr]
    · simp only [Dict.keys, List.map_cons, List.mem_cons] at hk
      rcases hk with hk | hk
      · exact absurd hk.symm hhit
      · rw [step, ih _ k (by simpa [Dict.keys] using hnd.2) (by simpa [Dict.keys] using hk)]
        simp [Dict.lookup?, hhit]

/-! ### Lemmas about the registry -/

theorem Registry.lookup?_eq_none_iff (r : Registry) (k : String) :
    r.lookup? k = none ↔ k ∉ r.keys := by
  induction r with
  | nil => simp [Registry.lookup?, Registry.keys]
  | cons kv rest ih =>
    by_cases h : kv.1 = k
    · simp [Registry.lookup?, Registry.keys, h]
    · simp [Registry.lookup?, Registry.keys, h, ih, Ne.symm h]

theorem Registry.containsKey_iff (r : Registry) (k : String) :
    r.containsKey k = true ↔ k ∈ r.keys := by
  simp [Registry.containsKey, Registry.keys, List.any_eq_true]

theorem Registry.lookup?_append (r s : Registry) (k : String) :
    (r ++ s).lookup? k =
      match r.lookup? k with
      | some v => some v
      | none => s.lookup? k := by
  induction r with
  | nil => simp [Registry.lookup?]
  | cons kv rest ih =>
    by_cases h : kv.1 = k
    · simp [Registry.lookup?, h]
    · simpa [Registry.lookup?, h] using ih

theorem Registry.lookup?_foldl_insert (kvs : List (String × BuildTask)) :
    ∀ (r : Registry) (k : String),
      (kvs.foldl Registry.insertIfAbsent r).lookup? k =
        match r.lookup? k with
        | some v => some v
        | none => (kvs.find? (fun kv => kv.1 == k)).map Prod.snd := by
  induction kvs with
  | nil => intro r k; cases hr : r.lookup? k <;> simp [hr]
  | cons kv rest ih =>
    intro r k
    have step : (kv :: rest).foldl Registry.insertIfAbsent r =
        rest.foldl Registry.insertIfAbsent (r.insertIfAbsent kv) := rfl
    rw [step, ih]
    cases hr : r.lookup? k with
    | some v =>
      have hmem : k ∈ r.keys := by
        by_contra hnot
        rw [(Registry.lookup?_eq_none_iff r k).mpr hnot] at hr
        cases hr
      have : (r.insertIfAbsent kv).lookup? k = some v := by
        unfold Registry.insertIfAbsent
        by_cases hc : r.containsKey kv.1
        · simp [hc, hr]
        · simp only [hc, Bool.false_eq_true, if_false]
          rw [Registry.lookup?_append, hr]
      simp [this]
    | none =>
      have hnot : k ∉ r.keys := (Registry.lookup?_eq_none_iff r k).mp hr
      by_cases hhit : kv.1 = k
      · subst hhit
        have hc : r.containsKey kv.1 = false := by
          rw [← Bool.not_eq_true, Registry.containsKey_iff]; exact hnot
        have : (r.insertIfAbsent kv).lookup? kv.1 = some kv.2 := by
          unfold Registry.insertIfAbsent
          rw [hc]
          simp only [Bool.false_eq_true, if_false]
          rw [Registry.lookup?_append, hr]
          simp [Registry.lookup?]
        simp [this, List.find?]
      · have : (r.insertIfAbsent kv).lookup? k = none := by
          unfold Registry.insertIfAbsent
          by_cases hc : r.containsKey kv.1
          · simp [hc, hr]
          · simp only [hc, Bool.false_eq_true, if_false]
            rw [Registry.lookup?_append, hr]
            simp [Registry.lookup?, hhit]
        simp only [this]
        have : (kv.1 == k) = false := by simpa using hhit
        simp [List.find?, this]

theorem Registry.mem_keys_foldl_insert (kvs : List (String × BuildTask)) :
    ∀ (r : Registry) (k : String),
      (k ∈ (kvs.foldl Registry.insertIfAbsent r).keys ↔
        k ∈ r.keys ∨ k ∈ kvs.map Prod.fst) := by
  induction kvs with
  | nil => intro r k; simp
  | cons kv rest ih =>
    intro r k
    have step : (kv :: rest).foldl Registry.insertIfAbsent r =
        rest.foldl Registry.insertIfAbsent (r.insertIfAbsent kv) := rfl
    rw [step, ih]
    have hkeys : k ∈ (r.insertIfAbsent kv).keys ↔ k ∈ r.keys ∨ k = kv.1 := by
      unfold Registry.insertIfAbsent
      by_cases hc : r.containsKey kv.1
      · simp only [hc, if_true]
        constructor
        · exact Or.inl
        · rintro (h | h)
          · exact h
          · subst h; exact (Registry.containsKey_iff r _).mp hc
      · simp [hc, Registry.keys]
    rw [hkeys]
    simp only [List.map_cons, List.mem_cons]
    tauto

theorem Registry.nodup_keys_insert (r : Registry) (kv : String × BuildTask)
    (h : r.keys.Nodup) : (r.insertIfAbsent kv).keys.Nodup := by
  unfold Registry.insertIfAbsent
  by_cases hc : r.containsKey kv.1
  · simp [hc, h]
  · have hnot : kv.1 ∉ r.keys := by
      intro hmem
      exact absurd ((Registry.containsKey_iff r _).mpr hmem) (by simp [hc])
    simp only [hc, Bool.false_eq_true, if_false]
    have hkeys : Registry.keys (r ++ [kv]) = r.keys ++ [kv.1] := by
      simp [Registry.keys]
    rw [hkeys]
    refine List.Nodup.append h (List.nodup_singleton _) ?_
    intro a ha hb
    rw [List.mem_singleton] at hb
    subst hb
    exact hnot ha

theorem Registry.nodup_keys_foldl_insert (kvs : List (String × BuildTask)) :
    ∀ (r : Registry), r.keys.Nodup →
      (kvs.foldl Registry.insertIfAbsent r).keys.Nodup := by
  induction kvs with
  | nil => intro r h; exact h
  | cons kv rest ih =>
    intro r h
    exact ih _ (Registry.nodup_keys_insert r kv h)

theorem Registry.forall_foldl_insert (P : String × BuildTask → Prop)
    (kvs : List (String × BuildTask)) :
    ∀ (r : Registry), (∀ kv ∈ r, P kv) → (∀ kv ∈ kvs, P kv) →
      ∀ kv ∈ kvs.foldl Registry.insertIfAbsent r, P kv := by
  induction kvs with
  | nil => intro r hr _ kv hmem; exact hr kv hmem
  | cons kv0 rest ih =>
    intro r hr hkvs kv hmem
    refine ih (r.insertIfAbsent kv0) ?_ (fun x hx => hkvs x (List.mem_cons_of_mem _ hx)) kv hmem
    intro x hx
    unfold Registry.insertIfAbsent at hx
    by_cases hc : r.containsKey kv0.1
    · exact hr x (by simpa [hc] using hx)
    · simp only [hc, Bool.false_eq_true, if_false, List.mem_append, List.mem_singleton] at hx
      rcases hx with hx | hx
      · exact hr x hx
      · rw [hx]; exact hkvs kv0 (by simp)

/-! ### Decomposition of the `generate_plans` loops -/

theorem foldl_flatMap {α β γ : Type} (f : γ → β → γ) (gl : α → List β) (l : List α) :
    ∀ (init : γ), (l.flatMap gl).foldl f init =
      l.foldl (fun acc x => (gl x).foldl f acc) init := by
  induction l with
  | nil => intro init; simp
  | cons x rest ih => intro init; simp [List.foldl_append, ih]

theorem Planner.processTest_foldl (p : Planner) (g : Dict → String) (c : Combo)
    (tms : List Dict) :
    ∀ (t : Registry) (acc : List String),
      tms.foldl (p.processTest g c) (t, acc) =
        ((tms.map (fun w => (g (p.testMeta w c),
            p.generate_build_task (p.testMeta w c) (g (p.testMeta w c)) w
              c.feature_dictionary))).foldl Registry.insertIfAbsent t,
         acc ++ tms.map (fun w => g (p.testMeta w c))) := by
  induction tms with
  | nil => intro t acc; simp
  | cons w rest ih =>
    intro t acc
    rw [List.foldl_cons, show p.processTest g c (t, acc) w =
      (t.insertIfAbsent (g (p.testMeta w c),
        p.generate_build_task (p.testMeta w c) (g (p.testMeta w c)) w c.feature_dictionary),
       acc ++ [g (p.testMeta w c)]) from rfl, ih]
    simp

theorem Planner.processCombo_eq (p : Planner) (g : Dict → String) (ms : Dict)
    (st : GenState) (c : Combo) :
    p.processCombo g ms st c =
      { updated := st.updated ++ [p.annotate g ms c],
        tasks := ((p.comboItems g ms c).map PlanItem.pair).foldl
          Registry.insertIfAbsent st.tasks } := by
  simp only [Planner.processCombo, Planner.processTest_foldl, Planner.comboItems,
    Planner.annotate, Planner.cloneTestMatrices, Planner.trainMeta, Planner.testMeta,
    PlanItem.pair, List.map_map, List.map_cons, List.foldl_cons, List.nil_append]
  rfl

theorem GenState.foldl_eq {α : Type} (f : GenState → α → GenState)
    (u : α → List Dict) (tf : Registry → α → Registry)
    (hf : ∀ st x, f st x = ⟨st.updated ++ u x, tf st.tasks x⟩) :
    ∀ (l : List α) (st : GenState),
      l.foldl f st = ⟨st.updated ++ l.flatMap u, l.foldl tf st.tasks⟩ := by
  intro l
  induction l with
  | nil => intro st; simp
  | cons x rest ih =>
    intro st
    rw [List.foldl_cons, hf, ih]
    simp

theorem Planner.foldl_combos (p : Planner) (g : Dict → String)
    (fds : List FeatureDictionary) (ms : Dict) (st : GenState) :
    (p.comboList fds).foldl (p.processCombo g ms) st =
      { updated := st.updated ++ (p.comboList fds).map (p.annotate g ms),
        tasks := (((p.comboList fds).flatMap (p.comboItems g ms)).map PlanItem.pair).foldl
          Registry.insertIfAbsent st.tasks } := by
  rw [GenState.foldl_eq (p.processCombo g ms)
    (fun c => [p.annotate g ms c])
    (fun t c => ((p.comboItems g ms c).map PlanItem.pair).foldl Registry.insertIfAbsent t)
    (fun st c => p.processCombo_eq g ms st c) (p.comboList fds) st]
  congr 1
  · have hsingle : ∀ (l : List Combo),
        (l.flatMap fun c => [p.annotate g ms c]) = l.map (p.annotate g ms) := by
      intro l
      induction l with
      | nil => rfl
      | cons c rest ih => simp [ih]
    rw [hsingle]
  · rw [List.map_flatMap, foldl_flatMap]

theorem Planner.generate_plans_eq (p : Planner) (g : Dict → String)
    (defs : List Dict) (fds : List FeatureDictionary) :
    p.generate_plans g defs fds =
      (defs.flatMap (fun ms => (p.comboList fds).map (p.annotate g ms)),
       Registry.build ((p.planItems g defs fds).map PlanItem.pair)) := by
  unfold Planner.generate_plans
  rw [GenState.foldl_eq
    (fun st ms => (p.comboList fds).foldl (p.processCombo g ms) st)
    (fun ms => (p.comboList fds).map (p.annotate g ms))
    (fun t ms => (((p.comboList fds).flatMap (p.comboItems g ms)).map PlanItem.pair).foldl
      Registry.insertIfAbsent t)
    (fun st ms => p.foldl_combos g fds ms st) defs]
  simp only [List.nil_append]
  congr 1
  rw [Planner.planItems, List.map_flatMap, Registry.build, foldl_flatMap]

/-! ### Facts about the annotated clone and the plan items -/

theorem Planner.annotate_train_uuid (p : Planner) (g : Dict → String) (ms : Dict) (c : Combo) :
    (p.annotate g ms c).lookup? "train_uuid" = some (.str (g (p.trainMeta ms c))) := by
  unfold Planner.annotate
  rw [Dict.lookup?_set_ne _ _ _ _ (by decide), Dict.lookup?_set_self]

theorem Planner.annotate_test_uuids (p : Planner) (g : Dict → String) (ms : Dict) (c : Combo) :
    (p.annotate g ms c).lookup? "test_uuids" =
      some (strList ((p.cloneTestMatrices g ms c).map (fun w => g (p.testMeta w c)))) := by
  unfold Planner.annotate
  rw [Dict.lookup?_set_self]

theorem Planner.cloneTestMatrices_eq (p : Planner) (g : Dict → String) (ms : Dict) (c : Combo) :
    p.cloneTestMatrices g ms c = ((ms.get! "test_matrices").asList).map Value.asDict := by
  unfold Planner.cloneTestMatrices
  rw [Dict.get!, Dict.lookup?_set_ne _ _ _ _ (by decide)]
  rfl

theorem Planner.comboItems_facts (p : Planner) (g : Dict → String) (ms : Dict) (c : Combo) :
    ∀ it ∈ p.comboItems g ms c,
      it.uuid = g it.meta ∧ it.task.matrix_uuid = it.uuid ∧
        it.clone = p.annotate g ms c ∧ Value.str it.uuid ∈ cloneUuids it.clone := by
  intro it hmem
  unfold Planner.comboItems at hmem
  simp only [List.mem_cons, List.mem_map] at hmem
  rcases hmem with h | ⟨w, hw, h⟩
  · subst h
    refine ⟨rfl, rfl, rfl, ?_⟩
    simp [cloneUuids, Dict.get!, Planner.annotate_train_uuid]
  · subst h
    refine ⟨rfl, rfl, rfl, ?_⟩
    have hvs : (p.annotate g ms c).get! "test_uuids" =
        strList ((p.cloneTestMatrices g ms c).map (fun w => g (p.testMeta w c))) := by
      rw [Dict.get!, Planner.annotate_test_uuids]
      rfl
    simp only [cloneUuids, hvs, strList, Value.asList, List.mem_cons, List.map_map]
    right
    exact List.mem_map.mpr ⟨w, hw, rfl⟩

theorem Planner.planItems_facts (p : Planner) (g : Dict → String)
    (defs : List Dict) (fds : List FeatureDictionary) :
    ∀ it ∈ p.planItems g defs fds,
      it.uuid = g it.meta ∧ it.task.matrix_uuid = it.uuid ∧
        it.clone ∈ (p.generate_plans g defs fds).1 ∧
        Value.str it.uuid ∈ cloneUuids it.clone := by
  intro it hmem
  unfold Planner.planItems at hmem
  simp only [List.mem_flatMap] at hmem
  obtain ⟨ms, hms, c, hc, hit⟩ := hmem
  obtain ⟨h1, h2, h3, h4⟩ := p.comboItems_facts g ms c it hit
  refine ⟨h1, h2, ?_, h4⟩
  rw [p.generate_plans_eq g defs fds]
  simp only [List.mem_flatMap, List.mem_map]
  exact ⟨ms, hms, c, hc, h3.symm⟩

theorem Registry.lookup?_mem (r : Registry) (k : String) (v : BuildTask)
    (h : r.lookup? k = some v) : (k, v) ∈ r := by
  induction r with
  | nil => cases h
  | cons kv rest ih =>
    unfold Registry.lookup? at h
    by_cases hk : kv.1 = k
    · rw [if_pos hk] at h
      cases h
      have hkv : (k, kv.2) = kv := by
        cases kv with
        | mk a b => cases hk; rfl
      rw [hkv]
      exact List.mem_cons_self _ _
    · rw [if_neg hk] at h
      exact List.mem_cons_of_mem _ (ih h)

theorem find?_congr {α : Type} (l : List α) (p q : α → Bool)
    (h : ∀ x ∈ l, p x = q x) : l.find? p = l.find? q := by
  induction l with
  | nil => rfl
  | cons x rest ih =>
    have hx := h x (by simp)
    by_cases hp : p x
    · rw [List.find?_cons_of_pos _ hp, List.find?_cons_of_pos _ (hx ▸ hp)]
    · rw [List.find?_cons_of_neg _ hp,
        List.find?_cons_of_neg _ (by rw [← hx]; exact hp),
        ih (fun y hy => h y (List.mem_cons_of_mem _ hy))]

theorem length_flatMap_const {α β : Type} (l : List α) (f : α → List β) (n : Nat)
    (h : ∀ x ∈ l, (f x).length = n) : (l.flatMap f).length = l.length * n := by
  induction l with
  | nil => simp
  | cons x rest ih =>
    simp only [List.flatMap_cons, List.length_append, List.length_cons,
      h x (by simp), ih (fun y hy => h y (List.mem_cons_of_mem _ hy))]
    ring

theorem Planner.comboList_length (p : Planner) (fds : List FeatureDictionary) :
    (p.comboList fds).length =
      p.label_names.length * p.label_types.length * p.states.length * fds.length := by
  unfold Planner.comboList
  rw [length_flatMap_const _ _ (p.label_types.length * (p.states.length * fds.length))
    (fun ln _ => by
      rw [length_flatMap_const _ _ (p.states.length * fds.length)
        (fun lt _ => by
          rw [length_flatMap_const _ _ fds.length
            (fun s _ => List.length_map _ _)])])]
  ring

/-! ### Frame lemmas for the heap embedding -/

theorem Planner.processComboH_length (p : Planner) (g : Dict → String) (msRef : Nat)
    (st : HeapState) (c : Combo) :
    (p.processComboH g msRef st c).heap.cells.length = st.heap.cells.length + 1 := by
  simp [Planner.processComboH, Heap.write, Heap.alloc, List.length_set]

theorem getD_set_ne {α : Type} (l : List α) (j i : Nat) (a d : α) (h : j ≠ i) :
    (l.set j a).getD i d = l.getD i d := by
  simp [List.getD, List.getElem?_set_ne h]

theorem getD_append_left {α : Type} (l m : List α) (i : Nat) (d : α)
    (h : i < l.length) : (l ++ m).getD i d = l.getD i d := by
  simp [List.getD, List.getElem?_append_left h]

theorem Planner.processComboH_frame (p : Planner) (g : Dict → String) (msRef : Nat)
    (st : HeapState) (c : Combo) (i : Nat) (hi : i < st.heap.cells.length) :
    (p.processComboH g msRef st c).heap.read i = st.heap.read i := by
  unfold Planner.processComboH
  simp only [Heap.read, Heap.write, Heap.alloc]
  rw [getD_set_ne _ _ _ _ _ (ne_of_gt hi), getD_set_ne _ _ _ _ _ (ne_of_gt hi),
    getD_append_left _ _ _ _ hi]

theorem Planner.processComboH_updated (p : Planner) (g : Dict → String) (msRef : Nat)
    (st : HeapState) (c : Combo) :
    (p.processComboH g msRef st c).updated = st.updated ++ [st.heap.cells.length] := rfl

theorem foldl_heapState_inv {α : Type} (f : HeapState → α → HeapState)
    (hstep : ∀ st x,
      st.heap.cells.length ≤ (f st x).heap.cells.length ∧
      (∀ i, i < st.heap.cells.length → (f st x).heap.read i = st.heap.read i) ∧
      (∀ cr ∈ (f st x).updated, cr ∈ st.updated ∨ st.heap.cells.length ≤ cr)) :
    ∀ (l : List α) (st : HeapState),
      st.heap.cells.length ≤ (l.foldl f st).heap.cells.length ∧
      (∀ i, i < st.heap.cells.length → (l.foldl f st).heap.read i = st.heap.read i) ∧
      (∀ cr ∈ (l.foldl f st).updated, cr ∈ st.updated ∨ st.heap.cells.length ≤ cr) := by
  intro l
  induction l with
  | nil =>
    intro st
    exact ⟨Nat.le_refl _, fun i _ => rfl, fun cr hcr => Or.inl hcr⟩
  | cons x rest ih =>
    intro st
    obtain ⟨hs1, hs2, hs3⟩ := hstep st x
    obtain ⟨hi1, hi2, hi3⟩ := ih (f st x)
    rw [List.foldl_cons]
    refine ⟨hs1.trans hi1, ?_, ?_⟩
    · intro i hi
      rw [hi2 i (Nat.lt_of_lt_of_le hi hs1), hs2 i hi]
    · intro cr hcr
      rcases hi3 cr hcr with hmem | hge
      · rcases hs3 cr hmem with hmem2 | hge2
        · exact Or.inl hmem2
        · exact Or.inr hge2
      · exact Or.inr (hs1.trans hge)

theorem Planner.processComboH_step (p : Planner) (g : Dict → String) (msRef : Nat) :
    ∀ (st : HeapState) (c : Combo),
      st.heap.cells.length ≤ (p.processComboH g msRef st c).heap.cells.length ∧
      (∀ i, i < st.heap.cells.length →
        (p.processComboH g msRef st c).heap.read i = st.heap.read i) ∧
      (∀ cr ∈ (p.processComboH g msRef st c).updated,
        cr ∈ st.updated ∨ st.heap.cells.length ≤ cr) := by
  intro st c
  refine ⟨by rw [p.processComboH_length g msRef st c]; exact Nat.le_succ _,
    fun i hi => p.processComboH_frame g msRef st c i hi, ?_⟩
  intro cr hcr
  rw [p.processComboH_updated g msRef st c] at hcr
  rcases List.mem_append.mp hcr with hmem | hone
  · exact Or.inl hmem
  · rw [List.mem_singleton] at hone
    exact Or.inr (Nat.le_of_eq hone.symm)

theorem Planner.generate_plansH_inv (p : Planner) (g : Dict → String) (h : Heap)
    (refs : List Nat) (fds : List FeatureDictionary) :
    h.cells.length ≤ (p.generate_plansH g h refs fds).heap.cells.length ∧
    (∀ i, i < h.cells.length →
      (p.generate_plansH g h refs fds).heap.read i = h.read i) ∧
    (∀ cr ∈ (p.generate_plansH g h refs fds).updated, h.cells.length ≤ cr) := by
  have hmain := foldl_heapState_inv
    (fun st r => (p.comboList fds).foldl (p.processComboH g r) st)
    (fun st r => foldl_heapState_inv (p.processComboH g r)
      (p.processComboH_step g r) (p.comboList fds) st)
    refs { heap := h, updated := [], tasks := [] }
  refine ⟨hmain.1, hmain.2.1, ?_⟩
  intro cr hcr
  rcases hmain.2.2 cr hcr with hmem | hge
  · cases hmem
  · exact hge

theorem flatMap_const_nil {α β : Type} (l : List α) :
    (l.flatMap fun _ => ([] : List β)) = [] := by
  induction l with
  | nil => rfl
  | cons x rest ih => simp [ih]

/-! ### Claim theorems -/

/-- C3, counterexample: the claim says a test-role record takes the
window's test frequency field, but on a window carrying both fields the
synthesized test-role record carries the training frequency value, which
differs from the window's test frequency value. -/
theorem as_of_date_frequency_role_counterexample :
    (exPlanner.make_metadata exBothFreqWindow exFD "outcome" "binary" "active"
        "test").lookup? "as_of_date_frequency" = some (.str "1 day") ∧
    exBothFreqWindow.lookup? "test_as_of_date_frequency" = some (.str "7 days") ∧
    Value.str "1 day" ≠ Value.str "7 days" := by
  refine ⟨rfl, rfl, ?_⟩
  intro hcontra
  exact absurd (Value.str.inj hcontra) (by decide)

/-- C3, amended: for every synthesized metadata record (whose window and
user metadata do not themselves carry an as-of-date-frequency key), the
as-of-date-frequency field always prefers the window's training frequency
field and falls back to the window's test frequency field, regardless of
the record's role; when neither field is present its value is None. -/
theorem as_of_date_frequency_prefers_training (p : Planner) (md : Dict)
    (fd : FeatureDictionary) (ln lt s mt : String)
    (h1 : "as_of_date_frequency" ∉ md.keys)
    (h2 : "as_of_date_frequency" ∉ Dict.keys p.user_metadata) :
    (p.make_metadata md fd ln lt s mt).lookup? "as_of_date_frequency" =
      some (md.getD "training_as_of_date_frequency"
        (md.getD "test_as_of_date_frequency" .vnone)) := by
  simp only [Planner.make_metadata]
  rw [Dict.lookup?_update_not_mem _ _ _ h2, Dict.lookup?_update_not_mem _ _ _ h1]
  rfl

/-- C3, witness for the amended theorem at a concrete window carrying
both frequency fields. -/
theorem as_of_date_frequency_prefers_training_witness :
    ("as_of_date_frequency" ∉ exBothFreqWindow.keys) ∧
    ("as_of_date_frequency" ∉ Dict.keys exPlanner.user_metadata) ∧
    (exPlanner.make_metadata exBothFreqWindow exFD "outcome" "binary" "active"
        "test").lookup? "as_of_date_frequency" =
      some (exBothFreqWindow.getD "training_as_of_date_frequency"
        (exBothFreqWindow.getD "test_as_of_date_frequency" .vnone)) :=
  ⟨by decide, by decide,
    as_of_date_frequency_prefers_training exPlanner exBothFreqWindow exFD
      "outcome" "binary" "active" "test" (by decide) (by decide)⟩

/-- C4: for every synthesized metadata record (whose window and user
metadata do not themselves carry a label-timespan key), regardless of the
role, the label-timespan field equals the window's test-timespan field
when present, otherwise the window's train-timespan field when present,
otherwise the literal "0 days". -/
theorem label_timespan_fallback (p : Planner) (md : Dict)
    (fd : FeatureDictionary) (ln lt s mt : String)
    (h1 : "label_timespan" ∉ md.keys)
    (h2 : "label_timespan" ∉ Dict.keys p.user_metadata) :
    (p.make_metadata md fd ln lt s mt).lookup? "label_timespan" =
      some (md.getD "test_label_timespan"
        (md.getD "training_label_timespan" (.str "0 days"))) := by
  simp only [Planner.make_metadata]
  rw [Dict.lookup?_update_not_mem _ _ _ h2, Dict.lookup?_update_not_mem _ _ _ h1]
  rfl

/-- C4, witness: a train-role record synthesized from a window lacking
the test-timespan field but having a train-timespan field yields that
train-timespan value. -/
theorem label_timespan_fallback_witness :
    ("label_timespan" ∉ exTrainWindow.keys) ∧
    ("label_timespan" ∉ Dict.keys exPlanner.user_metadata) ∧
    (exPlanner.make_metadata exTrainWindow exFD "outcome" "binary" "active"
        "train").lookup? "label_timespan" =
      some (exTrainWindow.getD "test_label_timespan"
        (exTrainWindow.getD "training_label_timespan" (.str "0 days"))) ∧
    exTrainWindow.getD "test_label_timespan"
      (exTrainWindow.getD "training_label_timespan" (.str "0 days")) =
        .str "6 months" :=
  ⟨by decide, by decide,
    label_timespan_fallback exPlanner exTrainWindow exFD
      "outcome" "binary" "active" "train" (by decide) (by decide), rfl⟩

/-- C5: metadata synthesis overlays the computed fields with the window
fields and then with the user metadata; hence every key of the user
metadata takes the user-metadata value in the synthesized record
(overriding window and computed fields alike), and every window key not
shadowed by user metadata takes the window value (overriding the computed
fields). -/
theorem metadata_merge_precedence (p : Planner) (md : Dict)
    (fd : FeatureDictionary) (ln lt s mt : String)
    (hum : (Dict.keys p.user_metadata).Nodup) (hmd : md.keys.Nodup) :
    (∀ k ∈ Dict.keys p.user_metadata,
      (p.make_metadata md fd ln lt s mt).lookup? k = p.user_metadata.lookup? k) ∧
    (∀ k ∈ md.keys, k ∉ Dict.keys p.user_metadata →
      (p.make_metadata md fd ln lt s mt).lookup? k = md.lookup? k) := by
  constructor
  · intro k hk
    simp only [Planner.make_metadata]
    exact Dict.lookup?_update_mem _ _ _ hum hk
  · intro k hk hk2
    simp only [Planner.make_metadata]
    rw [Dict.lookup?_update_not_mem _ _ _ hk2]
    exact Dict.lookup?_update_mem _ _ _ hmd hk

/-- C5, witness: concrete user metadata colliding with the computed
cohort-name field and the window's first-as-of-time field. -/
theorem metadata_merge_precedence_witness :
    (Dict.keys exPlannerUM.user_metadata).Nodup ∧
    (Dict.keys exTrainWindow).Nodup ∧
    ((∀ k ∈ Dict.keys exPlannerUM.user_metadata,
      (exPlannerUM.make_metadata exTrainWindow exFD "outcome" "binary" "active"
          "train").lookup? k = exPlannerUM.user_metadata.lookup? k) ∧
    (∀ k ∈ Dict.keys exTrainWindow, k ∉ Dict.keys exPlannerUM.user_metadata →
      (exPlannerUM.make_metadata exTrainWindow exFD "outcome" "binary" "active"
          "train").lookup? k = exTrainWindow.lookup? k)) :=
  ⟨by decide, by decide,
    metadata_merge_precedence exPlannerUM exTrainWindow exFD
      "outcome" "binary" "active" "train" (by decide) (by decide)⟩

/-- C7: an empty feature-dictionary, label-name or label-type list makes
the combination cross product empty for every matrix-set definition, so
the output list and the registry are both empty; an empty definitions
list likewise yields an empty output and registry. -/
theorem empty_inputs_empty_output (p : Planner) (g : Dict → String)
    (defs : List Dict) (fds : List FeatureDictionary)
    (h : fds = [] ∨ p.label_names = [] ∨ p.label_types = [] ∨ defs = []) :
    p.generate_plans g defs fds = ([], []) := by
  rcases h with h | h | h | h
  · rw [p.generate_plans_eq]
    simp [Planner.planItems, Planner.comboList, h, Registry.build, flatMap_const_nil]
  · rw [p.generate_plans_eq]
    simp [Planner.planItems, Planner.comboList, h, Registry.build, flatMap_const_nil]
  · rw [p.generate_plans_eq]
    simp [Planner.planItems, Planner.comboList, h, Registry.build, flatMap_const_nil]
  · rw [p.generate_plans_eq]
    simp [Planner.planItems, h, Registry.build]

/-- C7, witness: a planner with an empty label-names list yields the
empty output and registry on non-empty definitions. -/
theorem empty_inputs_empty_output_witness :
    ((Planner.init (.str "2010-01-01") [] ["binary"] ["active"] (.str "matrices")
        []).label_names = []) ∧
    (Planner.init (.str "2010-01-01") [] ["binary"] ["active"] (.str "matrices")
        []).generate_plans constUuid exDefs2 exFDs = ([], []) :=
  ⟨rfl,
    empty_inputs_empty_output
      (Planner.init (.str "2010-01-01") [] ["binary"] ["active"] (.str "matrices") [])
      constUuid exDefs2 exFDs (Or.inr (Or.inl rfl))⟩

/-- C8: `generate_plans` is deterministic — equal planner configurations,
pointwise-equal identifier functions and equal inputs yield equal
annotated-definition lists and equal registries. -/
theorem generate_plans_deterministic (p1 p2 : Planner) (g1 g2 : Dict → String)
    (defs1 defs2 : List Dict) (fds1 fds2 : List FeatureDictionary)
    (hp : p1 = p2) (hg : ∀ m, g1 m = g2 m) (hd : defs1 = defs2) (hf : fds1 = fds2) :
    p1.generate_plans g1 defs1 fds1 = p2.generate_plans g2 defs2 fds2 := by
  subst hp
  subst hd
  subst hf
  rw [funext hg]

/-- C8, witness at concrete equal inputs. -/
theorem generate_plans_deterministic_witness :
    (∀ m, constUuid m = constUuid m) ∧
    exPlanner.generate_plans constUuid exDefs2 exFDs =
      exPlanner.generate_plans constUuid exDefs2 exFDs :=
  ⟨fun _ => rfl,
    generate_plans_deterministic exPlanner exPlanner constUuid constUuid
      exDefs2 exDefs2 exFDs exFDs rfl (fun _ => rfl) rfl rfl⟩

/-- C2: the output has one annotated clone per (matrix-set × label name ×
label type × state × feature-dictionary) combination, grouped by input
definition in input order; its length is the product of the five list
lengths; and each clone's test-identifier list is the identifier of each
of its source definition's test windows, in window order (in particular
of equal length). -/
theorem generate_plans_cardinality (p : Planner) (g : Dict → String)
    (defs : List Dict) (fds : List FeatureDictionary) :
    (p.generate_plans g defs fds).1 =
      defs.flatMap (fun ms => (p.comboList fds).map (p.annotate g ms)) ∧
    (p.generate_plans g defs fds).1.length =
      defs.length * p.label_names.length * p.label_types.length *
        p.states.length * fds.length ∧
    ∀ ms ∈ defs, ∀ c ∈ p.comboList fds,
      ((p.annotate g ms c).get! "test_uuids").asList =
        ((ms.get! "test_matrices").asList).map
          (fun w => Value.str (g (p.testMeta w.asDict c))) := by
  have hupd : (p.generate_plans g defs fds).1 =
      defs.flatMap (fun ms => (p.comboList fds).map (p.annotate g ms)) := by
    rw [p.generate_plans_eq]
  refine ⟨hupd, ?_, ?_⟩
  · rw [hupd, length_flatMap_const _ _ (p.comboList fds).length
      (fun ms _ => List.length_map _ _), p.comboList_length]
    ring
  · intro ms _ c _
    have h1 : (p.annotate g ms c).get! "test_uuids" =
        strList ((p.cloneTestMatrices g ms c).map (fun w => g (p.testMeta w c))) := by
      rw [Dict.get!, Planner.annotate_test_uuids]
      rfl
    rw [h1, Planner.cloneTestMatrices_eq]
    simp [strList, Value.asList, List.map_map]

/-- C6: `generate_plans` leaves every input matrix-set definition object
unchanged — after the call each input reference still dereferences to its
pre-call dictionary — and every annotated definition it returns is a
freshly allocated deep copy, never one of the pre-existing objects. -/
theorem generate_plans_preserves_inputs (p : Planner) (g : Dict → String)
    (h : Heap) (refs : List Nat) (fds : List FeatureDictionary)
    (hvalid : ∀ r ∈ refs, r < h.cells.length) :
    (∀ r ∈ refs, (p.generate_plansH g h refs fds).heap.read r = h.read r) ∧
    (∀ cr ∈ (p.generate_plansH g h refs fds).updated, h.cells.length ≤ cr) := by
  obtain ⟨_, h2, h3⟩ := p.generate_plansH_inv g h refs fds
  exact ⟨fun r hr => h2 r (hvalid r hr), h3⟩

/-- C6, witness at a one-object heap. -/
theorem generate_plans_preserves_inputs_witness :
    (∀ r ∈ [0], r < exHeap.cells.length) ∧
    ((∀ r ∈ [0],
      (exPlanner.generate_plansH constUuid exHeap [0] exFDs).heap.read r =
        exHeap.read r) ∧
    (∀ cr ∈ (exPlanner.generate_plansH constUuid exHeap [0] exFDs).updated,
      exHeap.cells.length ≤ cr)) :=
  ⟨by decide,
    generate_plans_preserves_inputs exPlanner constUuid exHeap [0] exFDs (by decide)⟩

/-- C10: when the input definitions do not already carry the two
annotation keys, every output clone extends some input definition by
exactly the keys `train_uuid` and `test_uuids`: every other key keeps the
input's value, and the clone's key list is the input's key list followed
by the two new keys. -/
theorem clones_add_only_uuid_keys (p : Planner) (g : Dict → String)
    (defs : List Dict) (fds : List FeatureDictionary)
    (hfresh : ∀ ms ∈ defs,
      "train_uuid" ∉ Dict.keys ms ∧ "test_uuids" ∉ Dict.keys ms) :
    ∀ clone ∈ (p.generate_plans g defs fds).1, ∃ ms ∈ defs,
      (∀ k, k ≠ "train_uuid" → k ≠ "test_uuids" →
        clone.lookup? k = ms.lookup? k) ∧
      Dict.keys clone = Dict.keys ms ++ ["train_uuid", "test_uuids"] := by
  intro clone hclone
  rw [p.generate_plans_eq g defs fds] at hclone
  simp only [List.mem_flatMap, List.mem_map] at hclone
  obtain ⟨ms, hms, c, _, hcl⟩ := hclone
  subst hcl
  obtain ⟨hf1, hf2⟩ := hfresh ms hms
  refine ⟨ms, hms, ?_, ?_⟩
  · intro k hk1 hk2
    unfold Planner.annotate
    rw [Dict.lookup?_set_ne _ _ _ _ (fun hh => hk2 hh.symm),
      Dict.lookup?_set_ne _ _ _ _ (fun hh => hk1 hh.symm)]
  · unfold Planner.annotate
    have hkeys1 : (ms.set "train_uuid" (.str (g (p.trainMeta ms c)))).keys =
        Dict.keys ms ++ ["train_uuid"] :=
      Dict.keys_set_fresh _ _ _ hf1
    have hkeys2 : "test_uuids" ∉
        (ms.set "train_uuid" (.str (g (p.trainMeta ms c)))).keys := by
      rw [hkeys1]
      simp [hf2]
    rw [Dict.keys_set_fresh _ _ _ hkeys2, hkeys1, List.append_assoc]
    rfl

/-- C10, witness at concrete definitions lacking the annotation keys. -/
theorem clones_add_only_uuid_keys_witness :
    (∀ ms ∈ exDefs2,
      "train_uuid" ∉ Dict.keys ms ∧ "test_uuids" ∉ Dict.keys ms) ∧
    ∀ clone ∈ (exPlanner.generate_plans constUuid exDefs2 exFDs).1,
      ∃ ms ∈ exDefs2,
        (∀ k, k ≠ "train_uuid" → k ≠ "test_uuids" →
          clone.lookup? k = ms.lookup? k) ∧
        Dict.keys clone = Dict.keys ms ++ ["train_uuid", "test_uuids"] :=
  ⟨by decide,
    clones_add_only_uuid_keys exPlanner constUuid exDefs2 exFDs (by decide)⟩

/-- C9: every identifier annotated on an output clone (its `train_uuid`
and every element of its `test_uuids` list) is a key of the returned
registry, and every task stored in the registry has its own identifier
field equal to its key. -/
theorem output_uuids_registered (p : Planner) (g : Dict → String)
    (defs : List Dict) (fds : List FeatureDictionary) :
    (∀ kv ∈ (p.generate_plans g defs fds).2, kv.2.matrix_uuid = kv.1) ∧
    (∀ clone ∈ (p.generate_plans g defs fds).1, ∀ u : String,
      Value.str u ∈ cloneUuids clone →
        ∃ t, (p.generate_plans g defs fds).2.lookup? u = some t ∧
          t.matrix_uuid = u) := by
  have hreg : (p.generate_plans g defs fds).2 =
      ((p.planItems g defs fds).map PlanItem.pair).foldl Registry.insertIfAbsent [] := by
    rw [p.generate_plans_eq]
    rfl
  have hall : ∀ kv ∈ (p.generate_plans g defs fds).2, kv.2.matrix_uuid = kv.1 := by
    rw [hreg]
    refine Registry.forall_foldl_insert _ _ [] (fun kv hkv => absurd hkv (by simp)) ?_
    intro kv hkv
    obtain ⟨it, hit, hpair⟩ := List.mem_map.mp hkv
    obtain ⟨_, h2, _, _⟩ := p.planItems_facts g defs fds it hit
    rw [← hpair]
    exact h2
  refine ⟨hall, ?_⟩
  intro clone hclone u hu
  rw [p.generate_plans_eq] at hclone
  simp only [List.mem_flatMap, List.mem_map] at hclone
  obtain ⟨ms, hms, c, hc, hcl⟩ := hclone
  subst hcl
  have hitem : ∃ it ∈ p.comboItems g ms c, it.uuid = u := by
    have hhead : (p.annotate g ms c).get! "train_uuid" =
        Value.str (g (p.trainMeta ms c)) := by
      rw [Dict.get!, Planner.annotate_train_uuid]
      rfl
    have htest : ((p.annotate g ms c).get! "test_uuids").asList =
        ((p.cloneTestMatrices g ms c).map (fun w => g (p.testMeta w c))).map
          Value.str := by
      rw [Dict.get!, Planner.annotate_test_uuids]
      simp [strList, Value.asList]
    rw [cloneUuids, hhead, htest] at hu
    rcases List.mem_cons.mp hu with hu | hu
    · refine ⟨⟨p.trainMeta ms c, g (p.trainMeta ms c),
        p.generate_build_task (p.trainMeta ms c) (g (p.trainMeta ms c))
          (ms.get! "train_matrix").asDict c.feature_dictionary,
        p.annotate g ms c⟩, ?_, (Value.str.inj hu).symm⟩
      exact List.mem_cons_self _ _
    · rw [List.map_map] at hu
      obtain ⟨w, hw, hwu⟩ := List.mem_map.mp hu
      refine ⟨⟨p.testMeta w c, g (p.testMeta w c),
        p.generate_build_task (p.testMeta w c) (g (p.testMeta w c)) w
          c.feature_dictionary,
        p.annotate g ms c⟩, ?_, ?_⟩
      · exact List.mem_cons_of_mem _ (List.mem_map.mpr ⟨w, hw, rfl⟩)
      · exact Value.str.inj hwu
  obtain ⟨it, hit, hitu⟩ := hitem
  have hitems : it ∈ p.planItems g defs fds := by
    unfold Planner.planItems
    simp only [List.mem_flatMap]
    exact ⟨ms, hms, c, hc, hit⟩
  have hkey : u ∈ ((p.generate_plans g defs fds).2).keys := by
    rw [hreg]
    refine (Registry.mem_keys_foldl_insert _ _ _).mpr (Or.inr ?_)
    simp only [List.map_map]
    exact List.mem_map.mpr ⟨it, hitems, hitu⟩
  have hlook : (p.generate_plans g defs fds).2.lookup? u ≠ none := by
    rw [Ne, Registry.lookup?_eq_none_iff]
    intro hcontra
    exact hcontra hkey
  obtain ⟨t, ht⟩ := Option.ne_none_iff_exists'.mp hlook
  exact ⟨t, ht, hall (u, t) (Registry.lookup?_mem _ _ _ ht)⟩

/-- C1: assuming the identifier function separates the metadata records
synthesized in this call (structurally-equal records get the same
identifier, distinct records distinct identifiers), whenever two
combinations at processing positions i < j synthesize metadata records
with identical field content, the returned registry holds exactly one
task under the shared identifier, its content is the task built by the
first combination processed with that metadata content (first-seen wins;
later collisions leave the registry untouched), and both combinations'
output clones carry that identifier. -/
theorem dedup_first_seen (p : Planner) (g : Dict → String)
    (defs : List Dict) (fds : List FeatureDictionary) (i j : Nat)
    (hij : i < j) (hj : j < (p.planItems g defs fds).length)
    (hg : ∀ it1 ∈ p.planItems g defs fds, ∀ it2 ∈ p.planItems g defs fds,
      g it1.meta = g it2.meta → it1.meta = it2.meta)
    (hmeta : ((p.planItems g defs fds).getD i default).meta =
      ((p.planItems g defs fds).getD j default).meta) :
    ((p.planItems g defs fds).getD j default).uuid =
      ((p.planItems g defs fds).getD i default).uuid ∧
    ((p.generate_plans g defs fds).2).keys.count
      (((p.planItems g defs fds).getD i default).uuid) = 1 ∧
    (p.generate_plans g defs fds).2.lookup?
        (((p.planItems g defs fds).getD i default).uuid) =
      ((p.planItems g defs fds).find? (fun it =>
        it.meta == ((p.planItems g defs fds).getD i default).meta)).map
        PlanItem.task ∧
    ((p.planItems g defs fds).getD i default).clone ∈
      (p.generate_plans g defs fds).1 ∧
    Value.str (((p.planItems g defs fds).getD i default).uuid) ∈
      cloneUuids (((p.planItems g defs fds).getD i default).clone) ∧
    ((p.planItems g defs fds).getD j default).clone ∈
      (p.generate_plans g defs fds).1 ∧
    Value.str (((p.planItems g defs fds).getD i default).uuid) ∈
      cloneUuids (((p.planItems g defs fds).getD j default).clone) := by
  have hi : i < (p.planItems g defs fds).length := hij.trans hj
  have hreg : (p.generate_plans g defs fds).2 =
      ((p.planItems g defs fds).map PlanItem.pair).foldl
        Registry.insertIfAbsent [] := by
    rw [p.generate_plans_eq]
    rfl
  have hmi : (p.planItems g defs fds).getD i default ∈ p.planItems g defs fds := by
    rw [List.getD_eq_getElem _ _ hi]
    exact List.getElem_mem hi
  have hmj : (p.planItems g defs fds).getD j default ∈ p.planItems g defs fds := by
    rw [List.getD_eq_getElem _ _ hj]
    exact List.getElem_mem hj
  obtain ⟨hui, _, hci, hcui⟩ := p.planItems_facts g defs fds _ hmi
  obtain ⟨huj, _, hcj, hcuj⟩ := p.planItems_facts g defs fds _ hmj
  have huuid : ((p.planItems g defs fds).getD j default).uuid =
      ((p.planItems g defs fds).getD i default).uuid := by
    rw [hui, huj, hmeta]
  have hkey : ((p.planItems g defs fds).getD i default).uuid ∈
      (((p.planItems g defs fds).map PlanItem.pair).foldl
        Registry.insertIfAbsent []).keys := by
    refine (Registry.mem_keys_foldl_insert _ _ _).mpr (Or.inr ?_)
    simp only [List.map_map]
    exact List.mem_map.mpr ⟨(p.planItems g defs fds).getD i default, hmi, rfl⟩
  refine ⟨huuid, ?_, ?_, hci, hcui, hcj, ?_⟩
  · rw [hreg]
    have hnodup := Registry.nodup_keys_foldl_insert
      ((p.planItems g defs fds).map PlanItem.pair) [] List.nodup_nil
    exact List.count_eq_one_of_mem hnodup hkey
  · rw [hreg, Registry.lookup?_foldl_insert]
    have hbase : Registry.lookup? []
        (((p.planItems g defs fds).getD i default).uuid) = none := rfl
    rw [hbase, List.find?_map, Option.map_map]
    have hpred : ∀ it ∈ p.planItems g defs fds,
        ((fun kv => kv.1 == ((p.planItems g defs fds).getD i default).uuid) ∘
          PlanItem.pair) it =
        (it.meta == ((p.planItems g defs fds).getD i default).meta) := by
      intro it hit
      obtain ⟨hu, _, _, _⟩ := p.planItems_facts g defs fds it hit
      have hshow : (it.uuid == ((p.planItems g defs fds).getD i default).uuid) =
          (it.meta == ((p.planItems g defs fds).getD i default).meta) := by
        rw [Bool.eq_iff_iff, beq_iff_eq, beq_iff_eq]
        constructor
        · intro hcontra
          rw [hu, hui] at hcontra
          exact hg it hit _ hmi hcontra
        · intro hcase
          rw [hu, hui, hcase]
      exact hshow
    rw [find?_congr _ _ _ hpred]
    rfl
  · rw [← huuid]
    exact hcuj

/-- C1, witness: two matrix-set definitions sharing a train window make
the plan items at positions 0 and 1 synthesize identical metadata; the
identifier function `exUuid` separates the metadata records of this
call. -/
theorem dedup_first_seen_witness :
    0 < 1 ∧ 1 < (exPlanner.planItems exUuid exDefs2 exFDs).length ∧
    ((exPlanner.planItems exUuid exDefs2 exFDs).getD 0 default).meta =
      ((exPlanner.planItems exUuid exDefs2 exFDs).getD 1 default).meta ∧
    ((exPlanner.generate_plans exUuid exDefs2 exFDs).2).keys.count
      (((exPlanner.planItems exUuid exDefs2 exFDs).getD 0 default).uuid) = 1 := by
  have hitems : exPlanner.planItems exUuid exDefs2 exFDs =
      [exItemA, exItemB, exItemC] := rfl
  have hg : ∀ it1 ∈ exPlanner.planItems exUuid exDefs2 exFDs,
      ∀ it2 ∈ exPlanner.planItems exUuid exDefs2 exFDs,
      exUuid it1.meta = exUuid it2.meta → it1.meta = it2.meta := by
    intro it1 h1 it2 h2 hgm
    rw [hitems] at h1 h2
    simp only [List.mem_cons, List.not_mem_nil, or_false] at h1 h2
    rcases h1 with rfl | rfl | rfl <;> rcases h2 with rfl | rfl | rfl <;>
      first
        | rfl
        | exact absurd hgm (by decide)
  have hmain := dedup_first_seen exPlanner exUuid exDefs2 exFDs 0 1
    (by decide) (by rw [hitems]; decide) hg rfl
  exact ⟨by decide, by rw [hitems]; decide, rfl, hmain.2.1⟩

end Triage
